import Mathlib

/-!
Verification development for `src/bridge/csv_logger.py` (serial-port CSV
logger).  The logger loop (`log_data`, lines 60-132 of the source) is
embedded shallowly: the mutable session state (`header_written`,
`line_count`) together with the observable effects (file writes, console
prints, resource closes) form a state record, and each loop iteration is a
pure state transformer.  Python strings are modelled as `List Char`,
received serial bytes as `List Nat` (each < 256).
-/

namespace CsvLogger

/-- Components of a Python `datetime` value, as produced by
`datetime.now()` (source line 109).  Python guarantees
`1 <= year <= 9999`, `1 <= month <= 12`, `1 <= day <= 31`,
`hour < 24`, `minute < 60`, `second < 60`, `microsecond < 1000000`;
the digit renderings below model `strftime` faithfully on that range. -/
structure PyTime where
  year : Nat
  month : Nat
  day : Nat
  hour : Nat
  minute : Nat
  second : Nat
  microsecond : Nat
deriving DecidableEq

/-- Two-digit zero-padded decimal rendering (`%m`, `%d`, `%H`, `%M`, `%S`). -/
def dig2 (n : Nat) : List Char :=
  [Nat.digitChar (n / 10 % 10), Nat.digitChar (n % 10)]

/-- Three-digit zero-padded decimal rendering (used to state the
spec's `mmm` millisecond field). -/
def dig3 (n : Nat) : List Char :=
  [Nat.digitChar (n / 100 % 10), Nat.digitChar (n / 10 % 10), Nat.digitChar (n % 10)]

/-- Four-digit zero-padded decimal rendering (`%Y`). -/
def dig4 (n : Nat) : List Char :=
  [Nat.digitChar (n / 1000 % 10), Nat.digitChar (n / 100 % 10),
   Nat.digitChar (n / 10 % 10), Nat.digitChar (n % 10)]

/-- Six-digit zero-padded decimal rendering (`%f`, microseconds). -/
def dig6 (n : Nat) : List Char :=
  [Nat.digitChar (n / 100000 % 10), Nat.digitChar (n / 10000 % 10),
   Nat.digitChar (n / 1000 % 10), Nat.digitChar (n / 100 % 10),
   Nat.digitChar (n / 10 % 10), Nat.digitChar (n % 10)]

/-- The date part `%Y-%m-%d` of the strftime format at source line 109. -/
def strftimeDate (t : PyTime) : List Char :=
  dig4 t.year ++ ['-'] ++ dig2 t.month ++ ['-'] ++ dig2 t.day

/-- The time-of-day part `%H:%M:%S` of the strftime format at source line 109. -/
def strftimeTime (t : PyTime) : List Char :=
  dig2 t.hour ++ [':'] ++ dig2 t.minute ++ [':'] ++ dig2 t.second

/-- Characters of `datetime.now().strftime('%Y-%m-%d %H:%M:%S.%f')`
(source line 109), before the `[:-3]` slice. -/
def strftimeChars (t : PyTime) : List Char :=
  (strftimeDate t ++ [' '] ++ strftimeTime t ++ ['.']) ++ dig6 t.microsecond

/-- Model of `datetime.now().strftime('%Y-%m-%d %H:%M:%S.%f')[:-3]`
(source line 109).  The Python slice `s[:-3]` keeps all but the last
three characters. -/
def pyTimestamp (t : PyTime) : String :=
  String.mk ((strftimeChars t).take ((strftimeChars t).length - 3))

/-- The timestamp format stated by the spec, written from the spec's own
words: `YYYY-MM-DD HH:MM:SS.mmm`, where `mmm` is the millisecond count
(microseconds divided by 1000) zero-padded to three digits.  Declared
separately from `pyTimestamp` (which is translated from the source) so
the two can be compared. -/
def fmtSpecMs (t : PyTime) : String :=
  String.mk (dig4 t.year ++ ['-'] ++ dig2 t.month ++ ['-'] ++ dig2 t.day ++ [' '] ++
    dig2 t.hour ++ [':'] ++ dig2 t.minute ++ [':'] ++ dig2 t.second ++ ['.'] ++
    dig3 (t.microsecond / 1000))

/-- Model of Python `f"{n:4d}"` for a nonnegative `n` (source line 114):
right-aligned in a field of width 4, padded with SPACES (not zeros);
numbers of four or more digits are not padded. -/
def pyPad4 (n : Nat) : String :=
  String.mk (List.replicate (4 - (toString n).length) ' ' ++ (toString n).data)

/-- ASCII whitespace stripped by Python `str.strip()` (source line 87).
Python also strips some unicode whitespace; the device protocol is ASCII,
so the ASCII set is modelled. -/
def pyIsSpace (c : Char) : Bool :=
  c = ' ' || c = '\t' || c = '\n' || c = '\r' || c = '\x0b' || c = '\x0c'

/-- Model of Python `str.strip()` (source line 87): remove leading and
trailing whitespace. -/
def pyStrip (l : List Char) : List Char :=
  ((l.dropWhile pyIsSpace).reverse.dropWhile pyIsSpace).reverse

/-- The U+FFFD replacement character substituted by `errors='replace'`. -/
def repl : Char := '�'

/-- Is `b` a UTF-8 continuation byte (`0x80..0xBF`)? -/
def cont (b : Nat) : Bool := 0x80 ≤ b && b < 0xC0

/-- Model of Python `bytes.decode('utf-8', errors='replace')`
(source line 87).  This decoder is TOTAL: with `errors='replace'` Python
never raises `UnicodeDecodeError`; each maximal ill-formed subsequence is
replaced by one U+FFFD and decoding resumes at the next byte, per
Python's (W3C-style) replacement policy.  Overlong encodings, surrogates
(lead `0xED` with second byte `>= 0xA0`) and code points above U+10FFFF
are rejected as in CPython. -/
def decodeUtf8Replace : List Nat → List Char
  | [] => []
  | b :: bs =>
    if b < 0x80 then Char.ofNat b :: decodeUtf8Replace bs
    else if b < 0xC2 then repl :: decodeUtf8Replace bs
    else if b < 0xE0 then
      match bs with
      | c1 :: bs2 =>
        if cont c1 then
          Char.ofNat ((b - 0xC0) * 0x40 + (c1 - 0x80)) :: decodeUtf8Replace bs2
        else repl :: decodeUtf8Replace (c1 :: bs2)
      | [] => [repl]
    else if b < 0xF0 then
      match bs with
      | c1 :: bs2 =>
        if cont c1 && !(b == 0xE0 && c1 < 0xA0) && !(b == 0xED && 0xA0 ≤ c1) then
          match bs2 with
          | c2 :: bs3 =>
            if cont c2 then
              Char.ofNat ((b - 0xE0) * 0x1000 + (c1 - 0x80) * 0x40 + (c2 - 0x80)) ::
                decodeUtf8Replace bs3
            else repl :: decodeUtf8Replace (c2 :: bs3)
          | [] => [repl]
        else repl :: decodeUtf8Replace (c1 :: bs2)
      | [] => [repl]
    else if b < 0xF5 then
      match bs with
      | c1 :: bs2 =>
        if cont c1 && !(b == 0xF0 && c1 < 0x90) && !(b == 0xF4 && 0x90 ≤ c1) then
          match bs2 with
          | c2 :: bs3 =>
            if cont c2 then
              match bs3 with
              | c3 :: bs4 =>
                if cont c3 then
                  Char.ofNat ((b - 0xF0) * 0x40000 + (c1 - 0x80) * 0x1000 +
                    (c2 - 0x80) * 0x40 + (c3 - 0x80)) :: decodeUtf8Replace bs4
                else repl :: decodeUtf8Replace (c3 :: bs4)
              | [] => [repl]
            else repl :: decodeUtf8Replace (c2 :: bs3)
          | [] => [repl]
        else repl :: decodeUtf8Replace (c1 :: bs2)
      | [] => [repl]
    else repl :: decodeUtf8Replace bs

/-- Is the byte list well-formed UTF-8?  Mirrors the acceptance
conditions of `decodeUtf8Replace`; used only to state that an input is
malformed. -/
def validUtf8 : List Nat → Bool
  | [] => true
  | b :: bs =>
    if b < 0x80 then validUtf8 bs
    else if b < 0xC2 then false
    else if b < 0xE0 then
      match bs with
      | c1 :: bs2 => cont c1 && validUtf8 bs2
      | [] => false
    else if b < 0xF0 then
      match bs with
      | c1 :: c2 :: bs3 =>
        cont c1 && !(b == 0xE0 && c1 < 0xA0) && !(b == 0xED && 0xA0 ≤ c1) &&
          cont c2 && validUtf8 bs3
      | _ => false
    else if b < 0xF5 then
      match bs with
      | c1 :: c2 :: c3 :: bs4 =>
        cont c1 && !(b == 0xF0 && c1 < 0x90) && !(b == 0xF4 && 0x90 ≤ c1) &&
          cont c2 && cont c3 && validUtf8 bs4
      | _ => false
    else false

/-- Classification of a stripped line, one variant per branch of the
source's if-chain (lines 89-117). -/
inductive LineClass where
  | empty
  | comment
  | header
  | dataLine
  | unknown
deriving DecidableEq

/-- The header sentinel `timestamp,` checked at source line 98. -/
def tsHeader : List Char := "timestamp,".data

/-- Does the line start with the character `c`?  Models Python
`line.startswith('#')` / `line.startswith('-')` on a single character. -/
def headIs (c : Char) (l : List Char) : Bool :=
  match l with
  | [] => false
  | a :: _ => a = c

/-- Is the first character an ASCII digit?  Models `line[0].isdigit()`
at source line 107 (the device emits ASCII, so only `0-9` are modelled
of Python's wider unicode-digit notion). -/
def headDigit (l : List Char) : Bool :=
  match l with
  | [] => false
  | a :: _ => a.isDigit

/-- The source's line classification (lines 89-117), with its fixed
priority order: empty, then `#` comment, then `timestamp,` header, then
data (`line and line[0].isdigit() or line.startswith('-')`, which by
Python precedence is `(line and line[0].isdigit()) or
line.startswith('-')`), otherwise unknown. -/
def classify (l : List Char) : LineClass :=
  if l = [] then .empty
  else if headIs '#' l then .comment
  else if tsHeader.isPrefixOf l then .header
  else if headDigit l || headIs '-' l then .dataLine
  else .unknown

/-- One observable effect of the logger: a record written to the output
file, a console print, or the closing of one of the two resources. -/
inductive Act where
  | write (s : String)
  | put (s : String)
  | closeFile
  | closeSerial
deriving DecidableEq

/-- Session state of `log_data`: `header_written` (source line 80),
`line_count` (source line 81) and the trace of effects so far. -/
structure St where
  hw : Bool
  cnt : Nat
  tr : List Act
deriving DecidableEq

/-- Projection of an action to a file write, if it is one. -/
def actFile : Act → Option String
  | .write s => some s
  | _ => none

/-- Projection of an action to a console print, if it is one. -/
def actPut : Act → Option String
  | .put s => some s
  | _ => none

/-- The sequence of records written to the output file by a trace. -/
def fileOf (tr : List Act) : List String := tr.filterMap actFile

/-- The sequence of console lines printed by a trace. -/
def consoleOf (tr : List Act) : List String := tr.filterMap actPut

/-- Does this file record start with `real_time,`, i.e. is it a header
record produced at source line 101?  (Data records start with the
strftime year digit, so the two are disjoint.) -/
def isHdrRec (s : String) : Bool := "real_time,".data.isPrefixOf s.data

/-- Number of header records among the file records. -/
def countHdr (fs : List String) : Nat := fs.countP isHdrRec

/-- The body of one loop iteration on an already decoded and stripped
line (source lines 89-117): empty lines are skipped; `#` comments are
printed verbatim; a `timestamp,` line is written as
`real_time,<line>` (and echoed) only if the header was not yet written;
a data line is written as `<timestamp>,<line>`, increments the counter
and prints `[<count:4d>] <timestamp> | <line>`; anything else is printed
with a `? ` prefix.  `now` is the value `datetime.now()` returns during
this iteration (it is only consulted on the data branch). -/
def processLine (st : St) (l : List Char) (now : PyTime) : St :=
  match classify l with
  | .empty => st
  | .comment => { st with tr := st.tr ++ [.put (String.mk l)] }
  | .header =>
    if st.hw then st
    else
      { st with
        hw := true
        tr := st.tr ++ [.write ("real_time," ++ String.mk l ++ "\n"),
                        .put ("Header: real_time," ++ String.mk l)] }
  | .dataLine =>
    { st with
      cnt := st.cnt + 1
      tr := st.tr ++ [.write (pyTimestamp now ++ "," ++ String.mk l ++ "\n"),
                      .put ("[" ++ pyPad4 (st.cnt + 1) ++ "] " ++ pyTimestamp now ++
                            " | " ++ String.mk l)] }
  | .unknown => { st with tr := st.tr ++ [.put ("? " ++ String.mk l)] }

/-- One loop iteration on the raw bytes returned by `ser.readline()`:
decode with `errors='replace'`, strip, then process (source line 87).
Note that decoding is total, so the `except UnicodeDecodeError` handler
at source lines 119-121 has no corresponding branch: it is unreachable. -/
def stepBytes (st : St) (bs : List Nat) (now : PyTime) : St :=
  processLine st (pyStrip (decodeUtf8Replace bs)) now

/-- Run the loop body over a sequence of decoded, stripped lines, each
paired with the wall-clock time at its iteration. -/
def runLines (st : St) (ls : List (List Char × PyTime)) : St :=
  ls.foldl (fun s p => processLine s p.1 p.2) st

/-- Session state at loop entry (source lines 80-81). -/
def initSt : St := { hw := false, cnt := 0, tr := [] }

/-- One external event driving a loop iteration: a line of bytes is
available, no input is waiting (`ser.in_waiting` false), a
`KeyboardInterrupt` is raised, or a `serial.SerialException` is raised
during the read. -/
inductive Event where
  | bytes (bs : List Nat) (now : PyTime)
  | quiet
  | cancel
  | serialFail (msg : String)

/-- How the `while True` loop ended: the `except KeyboardInterrupt`
path (source line 123) or the `except serial.SerialException` path
(source line 126). -/
inductive ExitK where
  | cancelled
  | serialErr (msg : String)
deriving DecidableEq

/-- Outcome of a `log_data` call: aborted at one of the two open steps,
still inside the loop when the event list ran out (the real loop never
returns by itself), or stopped through one of the two handlers. -/
inductive Status where
  | serialOpenFailed
  | fileOpenFailed
  | running
  | stopped (k : ExitK)
deriving DecidableEq

/-- The `while True` loop (source lines 84-121), driven by a list of
events; stops at the first raised exception, returning the state at
that moment and how the loop exited. -/
def runLoop (st : St) : List Event → St × Option ExitK
  | [] => (st, none)
  | .quiet :: es => runLoop st es
  | .bytes bs now :: es => runLoop (stepBytes st bs now) es
  | .cancel :: _ => (st, some .cancelled)
  | .serialFail m :: _ => (st, some (.serialErr m))

/-- The console prints of a fully successful startup (source lines
53, 71, 77-78). -/
def startupTr (port outFile : String) (baud : Nat) : List Act :=
  [.put ("✓ Connected to " ++ port ++ " at " ++ toString baud ++ " baud"),
   .put ("✓ Logging to: " ++ outFile),
   .put "\nStarting data capture...",
   .put "Press Ctrl+C to stop\n"]

/-- The session state when the main loop is entered (source lines
80-81): flag unset, counter zero, only the startup prints on the trace. -/
def loopStart (port outFile : String) (baud : Nat) : St :=
  { hw := false, cnt := 0, tr := startupTr port outFile baud }

/-- The unconditional cleanup (source lines 129-132), after the exit
print of the handler that caught the exception: close the output file,
close the serial connection, confirm closure. -/
def cleanupTr (exitMsg : String) : List Act :=
  [.put exitMsg, .closeFile, .closeSerial, .put "✓ Files closed"]

/-- The whole of `log_data` (source lines 60-132).  `serialOk` is
whether `serial.Serial(...)` succeeds (line 52), `fileOk` whether
`open(output_file, 'a', buffering=1)` succeeds (line 70); `serialMsg`
and `fileMsg` are the respective exception texts.  On both successes the
loop runs over `events`; the two exception handlers and the `finally`
block (lines 123-132) append the summary or error print, the two closes,
and the closing confirmation. -/
def logData (port outFile : String) (baud : Nat) (serialOk fileOk : Bool)
    (serialMsg fileMsg : String) (events : List Event) : St × Status :=
  match serialOk with
  | false =>
    ({ hw := false
       cnt := 0
       tr := [.put ("✗ Error opening " ++ port ++ ": " ++ serialMsg)] },
     .serialOpenFailed)
  | true =>
    match fileOk with
    | false =>
      ({ hw := false
         cnt := 0
         tr := [.put ("✓ Connected to " ++ port ++ " at " ++ toString baud ++ " baud"),
                .put ("✗ Error opening output file: " ++ fileMsg),
                .closeSerial] },
       .fileOpenFailed)
    | true =>
      match runLoop (loopStart port outFile baud) events with
      | (st2, none) => (st2, .running)
      | (st2, some .cancelled) =>
        ({ st2 with
           tr := st2.tr ++ cleanupTr ("\n\n✓ Stopped logging. Total lines: " ++ toString st2.cnt) },
         .stopped .cancelled)
      | (st2, some (.serialErr m)) =>
        ({ st2 with
           tr := st2.tr ++ cleanupTr ("\n✗ Serial port error: " ++ m) },
         .stopped (.serialErr m))

/-- A sample wall-clock instant used by concrete evaluations:
2026-10-12 13:14:15.987654. -/
def t0 : PyTime := ⟨2026, 10, 12, 13, 14, 15, 987654⟩

/-- The effects appended to the trace by one `processLine` call
(bookkeeping view of `processLine`, proved to agree with it in
`processLine_tr`). -/
def lineActs (st : St) (l : List Char) (now : PyTime) : List Act :=
  match classify l with
  | .empty => []
  | .comment => [.put (String.mk l)]
  | .header =>
    if st.hw then []
    else [.write ("real_time," ++ String.mk l ++ "\n"),
          .put ("Header: real_time," ++ String.mk l)]
  | .dataLine =>
    [.write (pyTimestamp now ++ "," ++ String.mk l ++ "\n"),
     .put ("[" ++ pyPad4 (st.cnt + 1) ++ "] " ++ pyTimestamp now ++
           " | " ++ String.mk l)]
  | .unknown => [.put ("? " ++ String.mk l)]

/-! ### Basic lemmas about the rendered timestamp -/

theorem digitChar_mod10_isDigit (n : Nat) : (Nat.digitChar (n % 10)).isDigit = true := by
  have h : ∀ m, m < 10 → (Nat.digitChar m).isDigit = true := by decide
  exact h _ (Nat.mod_lt _ (by decide))

theorem ne_digitChar_mod10 (c : Char) (hc : c.isDigit = false) (n : Nat) :
    c ≠ Nat.digitChar (n % 10) := by
  intro h
  have hd := digitChar_mod10_isDigit n
  rw [← h, hc] at hd
  cases hd

/-- The slice `strftime('%Y-%m-%d %H:%M:%S.%f')[:-3]` renders exactly
the date, the time of day, and the three leading microsecond digits,
which are the zero-padded milliseconds `microsecond / 1000`. -/
theorem pyTimestamp_chars (t : PyTime) :
    (pyTimestamp t).data =
      dig4 t.year ++ ['-'] ++ dig2 t.month ++ ['-'] ++ dig2 t.day ++ [' '] ++
      dig2 t.hour ++ [':'] ++ dig2 t.minute ++ [':'] ++ dig2 t.second ++ ['.'] ++
      dig3 (t.microsecond / 1000) := by
  have key : ((strftimeDate t ++ [' '] ++ strftimeTime t ++ ['.']) ++ dig6 t.microsecond).take
      ((strftimeDate t ++ [' '] ++ strftimeTime t ++ ['.']).length + 3)
      = (strftimeDate t ++ [' '] ++ strftimeTime t ++ ['.']) ++
        [Nat.digitChar (t.microsecond / 100000 % 10),
         Nat.digitChar (t.microsecond / 10000 % 10),
         Nat.digitChar (t.microsecond / 1000 % 10)] := by
    rw [List.take_append]
    rfl
  have hlen : (strftimeChars t).length - 3
      = (strftimeDate t ++ [' '] ++ strftimeTime t ++ ['.']).length + 3 := by
    simp [strftimeChars, strftimeDate, strftimeTime, dig4, dig2, dig6]
  show (strftimeChars t).take ((strftimeChars t).length - 3) = _
  rw [hlen]
  rw [show strftimeChars t
      = (strftimeDate t ++ [' '] ++ strftimeTime t ++ ['.']) ++ dig6 t.microsecond from rfl]
  rw [key]
  have h2 : t.microsecond / 1000 / 100 = t.microsecond / 100000 := by
    rw [Nat.div_div_eq_div_mul]
  have h3 : t.microsecond / 1000 / 10 = t.microsecond / 10000 := by
    rw [Nat.div_div_eq_div_mul]
  simp [strftimeDate, strftimeTime, dig3, dig4, dig2, h2, h3]

theorem pyTimestamp_not_comma (t : PyTime) : ',' ∉ (pyTimestamp t).data := by
  rw [pyTimestamp_chars]
  intro hmem
  simp +decide [dig4, dig2, dig3, ne_digitChar_mod10 ',' (by decide)] at hmem

theorem pyTimestamp_not_nl (t : PyTime) : '\n' ∉ (pyTimestamp t).data := by
  rw [pyTimestamp_chars]
  intro hmem
  simp +decide [dig4, dig2, dig3, ne_digitChar_mod10 '\n' (by decide)] at hmem

/-- A record that begins with the rendered timestamp never looks like a
header record: its first character is a year digit, not `r`. -/
theorem hdr_pre_false (t : PyTime) (rest : List Char) :
    ("real_time,".data.isPrefixOf ((pyTimestamp t).data ++ rest)) = false := by
  rw [pyTimestamp_chars]
  have hd : ('r' == Nat.digitChar (t.year / 1000 % 10)) = false :=
    beq_eq_false_iff_ne.mpr (fun h => ne_digitChar_mod10 'r' (by decide) _ h)
  rw [show "real_time,".data = 'r' :: "eal_time,".data from rfl]
  simp [dig4, List.isPrefixOf, hd]

theorem self_pre (p rest : List Char) : (p.isPrefixOf (p ++ rest)) = true := by
  rw [List.isPrefixOf_iff_prefix]
  exact List.prefix_append _ _

theorem hdr_pre_not (t : PyTime) (rest : List Char) :
    ¬ (['r', 'e', 'a', 'l', '_', 't', 'i', 'm', 'e', ','] <+: (pyTimestamp t).data ++ rest) := by
  intro hp
  have h2 : ("real_time,".data.isPrefixOf ((pyTimestamp t).data ++ rest)) = true :=
    List.isPrefixOf_iff_prefix.mpr hp
  rw [hdr_pre_false] at h2
  cases h2

/-! ### Structural lemmas about one loop iteration -/

theorem processLine_tr (st : St) (l : List Char) (now : PyTime) :
    (processLine st l now).tr = st.tr ++ lineActs st l now := by
  cases h : classify l <;> cases hw : st.hw <;> simp [processLine, lineActs, h, hw]

theorem processLine_hw (st : St) (l : List Char) (now : PyTime) :
    (processLine st l now).hw = (st.hw || (classify l == LineClass.header)) := by
  cases h : classify l <;> cases hw : st.hw <;> simp [processLine, h, hw]

theorem processLine_cnt (st : St) (l : List Char) (now : PyTime) :
    (processLine st l now).cnt = st.cnt + (if classify l = .dataLine then 1 else 0) := by
  cases h : classify l <;> cases hw : st.hw <;> simp [processLine, h, hw]

theorem fileOf_append (a b : List Act) : fileOf (a ++ b) = fileOf a ++ fileOf b :=
  List.filterMap_append a b actFile

theorem consoleOf_append (a b : List Act) : consoleOf (a ++ b) = consoleOf a ++ consoleOf b :=
  List.filterMap_append a b actPut

theorem lineActs_no_close (st : St) (l : List Char) (now : PyTime) :
    Act.closeFile ∉ lineActs st l now ∧ Act.closeSerial ∉ lineActs st l now := by
  cases h : classify l <;> cases hw : st.hw <;> simp [lineActs, h, hw]

theorem countHdr_append (a b : List String) : countHdr (a ++ b) = countHdr a + countHdr b :=
  List.countP_append _ a b

/-- One iteration adds a header record exactly when the line is a header
line and the flag is still unset. -/
theorem countHdr_lineActs (st : St) (l : List Char) (now : PyTime) :
    countHdr (fileOf (lineActs st l now))
      = if classify l = .header ∧ st.hw = false then 1 else 0 := by
  cases h : classify l <;> cases hw : st.hw <;>
    simp [lineActs, h, hw, fileOf, actFile, countHdr, isHdrRec, List.countP_cons,
      String.data_append, List.append_assoc, hdr_pre_false, hdr_pre_not, self_pre]

theorem countHdr_processLine (st : St) (l : List Char) (now : PyTime) :
    countHdr (fileOf (processLine st l now).tr)
      = countHdr (fileOf st.tr) + (if classify l = .header ∧ st.hw = false then 1 else 0) := by
  rw [processLine_tr, fileOf_append, countHdr_append, countHdr_lineActs]

/-- Iterations on non-writing classifications leave the file untouched. -/
theorem fileOf_lineActs_nonwrite (st : St) (l : List Char) (now : PyTime)
    (h1 : classify l ≠ .header) (h2 : classify l ≠ .dataLine) :
    fileOf (lineActs st l now) = [] := by
  cases h : classify l <;> simp_all [lineActs, fileOf, actFile]

/-! ### Structural lemmas about whole runs -/

theorem runLines_cons (st : St) (p : List Char × PyTime) (ls : List (List Char × PyTime)) :
    runLines st (p :: ls) = runLines (processLine st p.1 p.2) ls := rfl

theorem runLines_cnt (ls : List (List Char × PyTime)) : ∀ st : St,
    (runLines st ls).cnt
      = st.cnt + ls.countP (fun p => classify p.1 == LineClass.dataLine) := by
  induction ls with
  | nil => intro st; simp [runLines]
  | cons p ls ih =>
    intro st
    rw [runLines_cons, ih, processLine_cnt, List.countP_cons]
    simp only [beq_iff_eq]
    split_ifs with hc <;> omega

theorem runLines_tr_mono (ls : List (List Char × PyTime)) : ∀ st : St,
    ∃ d, (runLines st ls).tr = st.tr ++ d := by
  induction ls with
  | nil => intro st; exact ⟨[], by simp [runLines]⟩
  | cons p ls ih =>
    intro st
    obtain ⟨d, hd⟩ := ih (processLine st p.1 p.2)
    exact ⟨lineActs st p.1 p.2 ++ d, by
      rw [runLines_cons, hd, processLine_tr, List.append_assoc]⟩

theorem runLoop_tr_mono (es : List Event) : ∀ st : St,
    ∃ d, ((runLoop st es).1.tr = st.tr ++ d
      ∧ Act.closeFile ∉ d ∧ Act.closeSerial ∉ d) := by
  induction es with
  | nil => intro st; exact ⟨[], by simp [runLoop]⟩
  | cons e es ih =>
    intro st
    cases e with
    | quiet => exact ih st
    | cancel => exact ⟨[], by simp [runLoop]⟩
    | serialFail m => exact ⟨[], by simp [runLoop]⟩
    | bytes bs now =>
      obtain ⟨d, hd, hf, hs⟩ := ih (stepBytes st bs now)
      refine ⟨lineActs st (pyStrip (decodeUtf8Replace bs)) now ++ d, ?_, ?_, ?_⟩
      · rw [show runLoop st (.bytes bs now :: es) = runLoop (stepBytes st bs now) es from rfl,
          hd, stepBytes, processLine_tr, List.append_assoc]
      · intro hmem
        rcases List.mem_append.mp hmem with hmem | hmem
        · exact (lineActs_no_close st _ now).1 hmem
        · exact hf hmem
      · intro hmem
        rcases List.mem_append.mp hmem with hmem | hmem
        · exact (lineActs_no_close st _ now).2 hmem
        · exact hs hmem

theorem runLoop_count_close (es : List Event) (st : St) :
    List.count Act.closeFile ((runLoop st es).1.tr) = List.count Act.closeFile st.tr
    ∧ List.count Act.closeSerial ((runLoop st es).1.tr) = List.count Act.closeSerial st.tr := by
  obtain ⟨d, hd, hf, hs⟩ := runLoop_tr_mono es st
  rw [hd, List.count_append, List.count_append,
    List.count_eq_zero.mpr hf, List.count_eq_zero.mpr hs]
  exact ⟨rfl, rfl⟩

theorem runLoop_countHdr_hw (es : List Event) : ∀ st : St, st.hw = true →
    countHdr (fileOf (runLoop st es).1.tr) = countHdr (fileOf st.tr) := by
  induction es with
  | nil => intro st _; rfl
  | cons e es ih =>
    intro st hw
    cases e with
    | quiet => exact ih st hw
    | cancel => rfl
    | serialFail m => rfl
    | bytes bs now =>
      have h1 : (stepBytes st bs now).hw = true := by
        rw [stepBytes, processLine_hw, hw, Bool.true_or]
      have h2 := ih (stepBytes st bs now) h1
      rw [show runLoop st (.bytes bs now :: es) = runLoop (stepBytes st bs now) es from rfl,
        h2, stepBytes, countHdr_processLine, hw]
      simp

theorem runLoop_countHdr (es : List Event) : ∀ st : St,
    countHdr (fileOf (runLoop st es).1.tr)
      ≤ countHdr (fileOf st.tr) + (if st.hw then 0 else 1) := by
  induction es with
  | nil => intro st; exact Nat.le_add_right _ _
  | cons e es ih =>
    intro st
    cases e with
    | quiet => exact ih st
    | cancel => exact Nat.le_add_right _ _
    | serialFail m => exact Nat.le_add_right _ _
    | bytes bs now =>
      rw [show runLoop st (.bytes bs now :: es) = runLoop (stepBytes st bs now) es from rfl]
      by_cases hw : st.hw
      · have h1 : (stepBytes st bs now).hw = true := by
          rw [stepBytes, processLine_hw, hw, Bool.true_or]
        rw [runLoop_countHdr_hw es _ h1, stepBytes, countHdr_processLine, hw]
        simp
      · have hw' : st.hw = false := by simpa using hw
        by_cases hc : classify (pyStrip (decodeUtf8Replace bs)) = LineClass.header
        · have h1 : (stepBytes st bs now).hw = true := by
            rw [stepBytes, processLine_hw, hc]
            simp
          rw [runLoop_countHdr_hw es _ h1, stepBytes, countHdr_processLine, hw']
          simp [hc, hw']
        · have h1 : (stepBytes st bs now).hw = false := by
            rw [stepBytes, processLine_hw, hw']
            simpa using hc
          have h2 := ih (stepBytes st bs now)
          rw [h1] at h2
          have h3 : countHdr (fileOf (stepBytes st bs now).tr) = countHdr (fileOf st.tr) := by
            rw [stepBytes, countHdr_processLine]
            simp [hc]
          rw [h3] at h2
          simpa [hw'] using h2

/-! ### Lemmas about stripping and newlines -/

theorem pyStrip_subset (l : List Char) : ∀ a ∈ pyStrip l, a ∈ l := by
  intro a ha
  unfold pyStrip at ha
  rw [List.mem_reverse] at ha
  have h1 := (List.dropWhile_sublist (l := (l.dropWhile pyIsSpace).reverse) pyIsSpace).subset ha
  rw [List.mem_reverse] at h1
  exact (List.dropWhile_sublist pyIsSpace).subset h1

theorem pyStrip_append_space (x : List Char) (c : Char) (hc : pyIsSpace c = true) :
    pyStrip (x ++ [c]) = pyStrip x := by
  unfold pyStrip
  rw [List.dropWhile_append]
  by_cases h : (x.dropWhile pyIsSpace).isEmpty = true
  · have h2 : x.dropWhile pyIsSpace = [] := by simpa [List.isEmpty_iff] using h
    rw [if_pos h, h2]
    simp [List.dropWhile_cons, hc]
  · rw [if_neg h, List.reverse_append]
    simp [List.dropWhile_cons, hc]

/-- `str.strip()` of a line whose only newline (if any) is its final
character contains no newline at all: the trailing newline is trailing
whitespace. -/
theorem pyStrip_no_nl (raw : List Char) (h : '\n' ∉ raw.dropLast) : '\n' ∉ pyStrip raw := by
  by_cases hr : raw = []
  · subst hr
    simp [pyStrip]
  · have hsplit := List.dropLast_append_getLast hr
    by_cases hsp : pyIsSpace (raw.getLast hr) = true
    · intro hmem
      rw [← hsplit, pyStrip_append_space _ _ hsp] at hmem
      exact h (pyStrip_subset _ _ hmem)
    · intro hmem
      have h1 : '\n' ∈ raw := pyStrip_subset _ _ hmem
      rw [← hsplit] at h1
      rcases List.mem_append.mp h1 with h2 | h2
      · exact h h2
      · rw [List.mem_singleton] at h2
        rw [← h2] at hsp
        exact hsp (by decide)

theorem record_nl (body : List Char) (h : '\n' ∉ body) :
    (body ++ ['\n']).count '\n' = 1 ∧ (body ++ ['\n']).getLast? = some '\n' := by
  constructor
  · rw [List.count_append, List.count_eq_zero.mpr h]
    rfl
  · exact List.getLast?_concat _

/-! ### Lemmas about classification -/

theorem classify_header_pre (l : List Char) :
    classify l = .header → tsHeader.isPrefixOf l = true := by
  unfold classify
  split_ifs with c1 c2 c3 c4 <;> intro h <;> simp_all

theorem classify_of_pre (l : List Char) (h : tsHeader.isPrefixOf l = true) :
    classify l = .header := by
  cases l with
  | nil => exact absurd h (by decide)
  | cons a l' =>
    have ha : a = 't' := by
      rw [show tsHeader = 't' :: "imestamp,".data from rfl] at h
      simp [List.isPrefixOf] at h
      exact h.1.symm
    subst ha
    simp +decide [classify, headIs, h]

/-! ### The first written record, when a header line comes first -/

theorem runLines_hfirst (ls : List (List Char × PyTime)) : ∀ (st : St) (q : List Char × PyTime),
    st.hw = false → fileOf st.tr = [] →
    ls.find? (fun p => classify p.1 == LineClass.header || classify p.1 == LineClass.dataLine)
      = some q →
    classify q.1 = .header →
    (fileOf (runLines st ls).tr).head? = some ("real_time," ++ String.mk q.1 ++ "\n") := by
  induction ls with
  | nil =>
    intro st q _ _ hf _
    simp [List.find?] at hf
  | cons p ls ih =>
    intro st q hw hfile hf hq
    rw [List.find?_cons] at hf
    by_cases hp : (classify p.1 == LineClass.header || classify p.1 == LineClass.dataLine) = true
    · have hpq : p = q := by
        rw [hp] at hf
        simpa using hf
      subst hpq
      rw [runLines_cons]
      obtain ⟨d, hd⟩ := runLines_tr_mono ls (processLine st p.1 p.2)
      rw [hd, fileOf_append, processLine_tr, fileOf_append, hfile]
      have hla : fileOf (lineActs st p.1 p.2) = ["real_time," ++ String.mk p.1 ++ "\n"] := by
        simp [lineActs, hq, hw, fileOf, actFile]
      rw [hla]
      simp
    · have hp' : (classify p.1 == LineClass.header || classify p.1 == LineClass.dataLine)
          = false := by simpa using hp
      rw [hp'] at hf
      simp at hf
      have hnh : classify p.1 ≠ LineClass.header := by
        intro hcon
        rw [hcon] at hp'
        simp at hp'
      have hnd : classify p.1 ≠ LineClass.dataLine := by
        intro hcon
        rw [hcon] at hp'
        simp at hp'
      have h1 : (processLine st p.1 p.2).hw = false := by
        rw [processLine_hw, hw, Bool.false_or]
        exact beq_eq_false_iff_ne.mpr hnh
      have h2 : fileOf (processLine st p.1 p.2).tr = [] := by
        rw [processLine_tr, fileOf_append, hfile, fileOf_lineActs_nonwrite _ _ _ hnh hnd]
        rfl
      rw [runLines_cons]
      exact ih _ q h1 h2 hf hq

/-! ### Lemmas about the full `log_data` lifecycle -/

theorem fileOf_startupTr (port outFile : String) (baud : Nat) :
    fileOf (startupTr port outFile baud) = [] := rfl

theorem fileOf_cleanupTr (m : String) : fileOf (cleanupTr m) = [] := rfl

theorem count_close_cleanupTr (m : String) :
    List.count Act.closeFile (cleanupTr m) = 1
    ∧ List.count Act.closeSerial (cleanupTr m) = 1 := by
  constructor <;> rfl

theorem logData_countHdr (port outFile : String) (baud : Nat) (sOk fOk : Bool)
    (sMsg fMsg : String) (events : List Event) :
    countHdr (fileOf (logData port outFile baud sOk fOk sMsg fMsg events).1.tr) ≤ 1 := by
  cases sOk with
  | false => simp [logData, fileOf, actFile, countHdr]
  | true =>
    cases fOk with
    | false => simp [logData, fileOf, actFile, countHdr]
    | true =>
      have key := runLoop_countHdr events (loopStart port outFile baud)
      have hst : countHdr (fileOf (loopStart port outFile baud).tr) = 0 := rfl
      rw [hst] at key
      have hfl : (loopStart port outFile baud).hw = false := rfl
      rw [hfl] at key
      simp only [logData]
      rcases hE : runLoop (loopStart port outFile baud) events with ⟨st2, ko⟩
      rw [hE] at key
      simp only at key
      rcases ko with _ | k
      · simpa using key
      · rcases k with _ | m <;>
        · simp only [fileOf_append, countHdr_append, fileOf_cleanupTr]
          simpa using key

/-! ### Claim theorems -/

/-- Claim C1: every line classified as a DataLine appends exactly one
record to the output file, of the form `<timestamp>,<line>\n`; the
timestamp contains no comma, so the first comma of the record ends the
timestamp field, and the part of the record after that comma, up to the
record terminator, is exactly the trimmed input line: the payload
round-trips unchanged. -/
theorem claim_C1_data_roundtrip (st : St) (l : List Char) (now : PyTime)
    (h : classify l = .dataLine) :
    fileOf (processLine st l now).tr
      = fileOf st.tr ++ [pyTimestamp now ++ "," ++ String.mk l ++ "\n"]
    ∧ ',' ∉ (pyTimestamp now).data
    ∧ ((pyTimestamp now ++ "," ++ String.mk l ++ "\n").data.drop
        ((pyTimestamp now).data.length + 1)).dropLast = l := by
  refine ⟨?_, pyTimestamp_not_comma now, ?_⟩
  · rw [processLine_tr, fileOf_append]
    simp [lineActs, h, fileOf, actFile]
  · have hc : ("," : String).data = [','] := rfl
    have hn : ("\n" : String).data = ['\n'] := rfl
    have hm : (String.mk l).data = l := rfl
    have hdata : (pyTimestamp now ++ "," ++ String.mk l ++ "\n").data
        = ((pyTimestamp now).data ++ [',']) ++ (l ++ ['\n']) := by
      simp [String.data_append, hc, hn, hm, List.append_assoc]
    rw [hdata,
      show (pyTimestamp now).data.length + 1 = ((pyTimestamp now).data ++ [',']).length + 0
        from by simp,
      List.drop_append]
    simp

theorem claim_C1_witness :
    classify "12,5".data = .dataLine
    ∧ (fileOf (processLine initSt "12,5".data t0).tr
        = fileOf initSt.tr ++ [pyTimestamp t0 ++ "," ++ String.mk "12,5".data ++ "\n"]
      ∧ ',' ∉ (pyTimestamp t0).data
      ∧ ((pyTimestamp t0 ++ "," ++ String.mk "12,5".data ++ "\n").data.drop
          ((pyTimestamp t0).data.length + 1)).dropLast = "12,5".data) :=
  ⟨by decide, claim_C1_data_roundtrip initSt "12,5".data t0 (by decide)⟩

/-- Claim C4: LineCounter counts exactly the persisted DataLines: from
the initial state it equals the number of DataLine-classified inputs
(whatever Comment, Header, Unknown or empty lines are interleaved), it
starts at zero, never decreases, is unchanged by any non-DataLine
iteration, and on a DataLine iteration increments by one exactly as the
one record is appended. -/
theorem claim_C4_line_counter (ls : List (List Char × PyTime)) :
    (runLines initSt ls).cnt = ls.countP (fun p => classify p.1 == LineClass.dataLine)
    ∧ initSt.cnt = 0
    ∧ (∀ (st : St) (ls2 : List (List Char × PyTime)), st.cnt ≤ (runLines st ls2).cnt)
    ∧ (∀ (st : St) (l : List Char) (now : PyTime), classify l ≠ .dataLine →
        (processLine st l now).cnt = st.cnt)
    ∧ (∀ (st : St) (l : List Char) (now : PyTime), classify l = .dataLine →
        (processLine st l now).cnt = st.cnt + 1
        ∧ fileOf (processLine st l now).tr
            = fileOf st.tr ++ [pyTimestamp now ++ "," ++ String.mk l ++ "\n"]) := by
  refine ⟨?_, rfl, ?_, ?_, ?_⟩
  · rw [runLines_cnt]
    simp [initSt]
  · intro st ls2
    rw [runLines_cnt]
    exact Nat.le_add_right _ _
  · intro st l now h
    rw [processLine_cnt]
    simp [h]
  · intro st l now h
    refine ⟨by rw [processLine_cnt]; simp [h], ?_⟩
    rw [processLine_tr, fileOf_append]
    simp [lineActs, h, fileOf, actFile]

theorem claim_C4_witness :
    (runLines initSt [("#c".data, t0), ("12".data, t0), ("xyz".data, t0), ("7".data, t0)]).cnt
      = List.countP (fun p => classify p.1 == LineClass.dataLine)
          [("#c".data, t0), ("12".data, t0), ("xyz".data, t0), ("7".data, t0)]
    ∧ classify "12".data = .dataLine
    ∧ (processLine initSt "12".data t0).cnt = initSt.cnt + 1 :=
  ⟨(claim_C4_line_counter _).1, by decide,
    ((claim_C4_line_counter []).2.2.2.2 initSt "12".data t0 (by decide)).1⟩

/-- Claim C5: every non-empty trimmed line is classified into exactly
one variant by the fixed priority order (`#` first, then `timestamp,`,
then leading digit or `-`, else unknown), and Comment and UnknownLine
are console-only: a `#` line is printed verbatim and appends nothing to
the file, an unknown line is printed with a `? ` prefix and appends
nothing to the file. -/
theorem claim_C5_classification (l : List Char) (st : St) (now : PyTime) :
    (l ≠ [] →
      ((classify l = .comment ↔ headIs '#' l = true)
      ∧ (classify l = .header ↔ (headIs '#' l = false ∧ tsHeader.isPrefixOf l = true))
      ∧ (classify l = .dataLine ↔ (headIs '#' l = false ∧ tsHeader.isPrefixOf l = false
          ∧ (headDigit l || headIs '-' l) = true))
      ∧ (classify l = .unknown ↔ (headIs '#' l = false ∧ tsHeader.isPrefixOf l = false
          ∧ (headDigit l || headIs '-' l) = false))))
    ∧ (headIs '#' l = true →
        fileOf (processLine st l now).tr = fileOf st.tr
        ∧ consoleOf (processLine st l now).tr = consoleOf st.tr ++ [String.mk l])
    ∧ (classify l = .unknown →
        fileOf (processLine st l now).tr = fileOf st.tr
        ∧ consoleOf (processLine st l now).tr = consoleOf st.tr ++ ["? " ++ String.mk l]) := by
  refine ⟨?_, ?_, ?_⟩
  · intro hne
    unfold classify
    rw [if_neg hne]
    by_cases h2 : headIs '#' l = true
    · rw [if_pos h2]
      simp [h2]
    · have h2' : headIs '#' l = false := by simpa using h2
      rw [if_neg h2]
      by_cases h3 : tsHeader.isPrefixOf l = true
      · rw [if_pos h3]
        simp [h2', h3]
      · have h3' : tsHeader.isPrefixOf l = false := Bool.eq_false_iff.mpr h3
        rw [if_neg h3]
        by_cases h4 : (headDigit l || headIs '-' l) = true
        · rw [if_pos h4]
          simp [h2', h3', h4]
        · have h4' : (headDigit l || headIs '-' l) = false := by simpa using h4
          rw [if_neg h4]
          simp [h2', h3', h4']
  · intro h2
    have hne : l ≠ [] := by
      intro h0
      rw [h0] at h2
      exact absurd h2 (by decide)
    have hcl : classify l = .comment := by
      unfold classify
      rw [if_neg hne, if_pos h2]
    rw [processLine_tr, fileOf_append, consoleOf_append]
    simp [lineActs, hcl, fileOf, consoleOf, actFile, actPut]
  · intro hu
    rw [processLine_tr, fileOf_append, consoleOf_append]
    simp [lineActs, hu, fileOf, consoleOf, actFile, actPut]

theorem claim_C5_witness :
    ("#dbg".data ≠ [] ∧ (classify "#dbg".data = .comment ↔ headIs '#' "#dbg".data = true))
    ∧ (headIs '#' "#dbg".data = true
        ∧ fileOf (processLine initSt "#dbg".data t0).tr = fileOf initSt.tr
        ∧ consoleOf (processLine initSt "#dbg".data t0).tr
            = consoleOf initSt.tr ++ [String.mk "#dbg".data])
    ∧ (classify "xyz".data = .unknown
        ∧ fileOf (processLine initSt "xyz".data t0).tr = fileOf initSt.tr
        ∧ consoleOf (processLine initSt "xyz".data t0).tr
            = consoleOf initSt.tr ++ ["? " ++ String.mk "xyz".data]) :=
  ⟨⟨by decide, ((claim_C5_classification "#dbg".data initSt t0).1 (by decide)).1⟩,
   ⟨by decide, (claim_C5_classification "#dbg".data initSt t0).2.1 (by decide)⟩,
   ⟨by decide, (claim_C5_classification "xyz".data initSt t0).2.2 (by decide)⟩⟩

/-- Claim C2: over any whole run, at most one header record is written
to the output file; a `timestamp,` line arriving while the flag is set
leaves the state (file, console, flag, counter) entirely unchanged, and
one arriving while the flag is unset is persisted as
`real_time,<line>`, echoed, and sets the flag. -/
theorem claim_C2_header_once (port outFile : String) (baud : Nat) (serialOk fileOk : Bool)
    (serialMsg fileMsg : String) (events : List Event) (st : St) (l : List Char) (now : PyTime) :
    countHdr (fileOf (logData port outFile baud serialOk fileOk serialMsg fileMsg events).1.tr) ≤ 1
    ∧ (tsHeader.isPrefixOf l = true → st.hw = true → processLine st l now = st)
    ∧ (tsHeader.isPrefixOf l = true → st.hw = false →
        processLine st l now
          = { hw := true
              cnt := st.cnt
              tr := st.tr ++ [.write ("real_time," ++ String.mk l ++ "\n"),
                              .put ("Header: real_time," ++ String.mk l)] }) := by
  refine ⟨logData_countHdr port outFile baud serialOk fileOk serialMsg fileMsg events, ?_, ?_⟩
  · intro hpre hhw
    have hcl := classify_of_pre l hpre
    simp [processLine, hcl, hhw]
  · intro hpre hhw
    have hcl := classify_of_pre l hpre
    simp [processLine, hcl, hhw]

theorem claim_C2_witness :
    countHdr (fileOf (logData "p" "o" 9600 true true "e" "e"
        [.bytes ("timestamp,a".data.map Char.toNat) t0,
         .bytes ("timestamp,a".data.map Char.toNat) t0, .cancel]).1.tr) ≤ 1
    ∧ tsHeader.isPrefixOf "timestamp,a".data = true
    ∧ processLine { hw := true, cnt := 3, tr := [] } "timestamp,a".data t0
        = { hw := true, cnt := 3, tr := [] }
    ∧ processLine initSt "timestamp,a".data t0
        = { hw := true
            cnt := initSt.cnt
            tr := initSt.tr ++ [.write ("real_time," ++ String.mk "timestamp,a".data ++ "\n"),
                                .put ("Header: real_time," ++ String.mk "timestamp,a".data)] } :=
  ⟨(claim_C2_header_once "p" "o" 9600 true true "e" "e"
      [.bytes ("timestamp,a".data.map Char.toNat) t0,
       .bytes ("timestamp,a".data.map Char.toNat) t0, .cancel]
      initSt "timestamp,a".data t0).1,
   by decide,
   (claim_C2_header_once "p" "o" 9600 true true "e" "e" []
      { hw := true, cnt := 3, tr := [] } "timestamp,a".data t0).2.1 (by decide) rfl,
   (claim_C2_header_once "p" "o" 9600 true true "e" "e" []
      initSt "timestamp,a".data t0).2.2 (by decide) rfl⟩

/-- Claim C6: whenever the loop exits, through cancellation or through a
serial error during read, the cleanup runs exactly once: exactly one
close of the output file and one close of the serial connection appear
on the trace, followed by the closure confirmation; on cancellation the
summary carrying the final LineCounter value is printed immediately
before the cleanup, and on a serial error the error report is. -/
theorem claim_C6_cleanup (port outFile : String) (baud : Nat) (sMsg fMsg : String)
    (events : List Event) (k : ExitK)
    (h : (logData port outFile baud true true sMsg fMsg events).2 = .stopped k) :
    List.count Act.closeFile (logData port outFile baud true true sMsg fMsg events).1.tr = 1
    ∧ List.count Act.closeSerial (logData port outFile baud true true sMsg fMsg events).1.tr = 1
    ∧ (k = .cancelled → ∃ p, (logData port outFile baud true true sMsg fMsg events).1.tr
        = p ++ cleanupTr ("\n\n✓ Stopped logging. Total lines: "
            ++ toString (logData port outFile baud true true sMsg fMsg events).1.cnt))
    ∧ (∀ m, k = .serialErr m → ∃ p, (logData port outFile baud true true sMsg fMsg events).1.tr
        = p ++ cleanupTr ("\n✗ Serial port error: " ++ m)) := by
  have hcnt := runLoop_count_close events (loopStart port outFile baud)
  have hc0 : List.count Act.closeFile (loopStart port outFile baud).tr = 0 := rfl
  have hs0 : List.count Act.closeSerial (loopStart port outFile baud).tr = 0 := rfl
  rcases hE : runLoop (loopStart port outFile baud) events with ⟨st2, ko⟩
  rw [hE, hc0, hs0] at hcnt
  simp only [logData, hE] at h ⊢
  rcases ko with _ | k'
  · simp at h
  · rcases k' with _ | m
    · simp only at h ⊢
      have hk : k = .cancelled := by
        injection h with h2
        exact h2.symm
      subst hk
      refine ⟨?_, ?_, fun _ => ⟨st2.tr, rfl⟩, fun m hm => absurd hm (by simp)⟩
      · rw [List.count_append, hcnt.1, (count_close_cleanupTr _).1]
      · rw [List.count_append, hcnt.2, (count_close_cleanupTr _).2]
    · simp only at h ⊢
      have hk : k = .serialErr m := by
        injection h with h2
        exact h2.symm
      subst hk
      refine ⟨?_, ?_, fun hm => absurd hm (by simp), ?_⟩
      · rw [List.count_append, hcnt.1, (count_close_cleanupTr _).1]
      · rw [List.count_append, hcnt.2, (count_close_cleanupTr _).2]
      · intro m' hm'
        injection hm' with h3
        subst h3
        exact ⟨st2.tr, rfl⟩

theorem claim_C6_witness :
    (logData "p" "o" 9600 true true "e" "e" [Event.cancel]).2 = .stopped .cancelled
    ∧ List.count Act.closeFile (logData "p" "o" 9600 true true "e" "e" [Event.cancel]).1.tr = 1
    ∧ List.count Act.closeSerial (logData "p" "o" 9600 true true "e" "e" [Event.cancel]).1.tr = 1
    ∧ (∃ p, (logData "p" "o" 9600 true true "e" "e" [Event.cancel]).1.tr
        = p ++ cleanupTr ("\n\n✓ Stopped logging. Total lines: "
            ++ toString (logData "p" "o" 9600 true true "e" "e" [Event.cancel]).1.cnt)) :=
  ⟨by decide,
   (claim_C6_cleanup "p" "o" 9600 "e" "e" [Event.cancel] .cancelled (by decide)).1,
   (claim_C6_cleanup "p" "o" 9600 "e" "e" [Event.cancel] .cancelled (by decide)).2.1,
   (claim_C6_cleanup "p" "o" 9600 "e" "e" [Event.cancel] .cancelled (by decide)).2.2.1 rfl⟩

/-- Claim C7: if the output file fails to open after the serial
connection was opened, `log_data` reports the error, closes the serial
connection before returning, never starts the main loop (the outcome is
`fileOpenFailed`, whatever events would have followed), and writes
nothing to any file. -/
theorem claim_C7_file_open_failure (port outFile : String) (baud : Nat)
    (sMsg fMsg : String) (events : List Event) :
    logData port outFile baud true false sMsg fMsg events
      = ({ hw := false
           cnt := 0
           tr := [.put ("✓ Connected to " ++ port ++ " at " ++ toString baud ++ " baud"),
                  .put ("✗ Error opening output file: " ++ fMsg),
                  .closeSerial] }, .fileOpenFailed)
    ∧ fileOf (logData port outFile baud true false sMsg fMsg events).1.tr = []
    ∧ List.count Act.closeSerial (logData port outFile baud true false sMsg fMsg events).1.tr
        = 1 :=
  ⟨rfl, rfl, rfl⟩

/-- Claim C8, counterexample: a run whose first line is a data line
writes a data record first, so the first record ever written is NOT the
prefixed header record. -/
theorem claim_C8_counterexample :
    (fileOf (runLines initSt [("123,45".data, t0)]).tr).head?
      = some (pyTimestamp t0 ++ ",123,45\n")
    ∧ isHdrRec (pyTimestamp t0 ++ ",123,45\n") = false := by
  constructor <;> decide

/-- Claim C8 (amended): in every run in which some header-or-data line
occurs and the first such line is a HeaderLine, the first record written
to the output file is the prefixed header record
`real_time,timestamp,<original header fields>`. -/
theorem claim_C8_header_first (ls : List (List Char × PyTime)) (q : List Char × PyTime)
    (hf : ls.find?
        (fun p => classify p.1 == LineClass.header || classify p.1 == LineClass.dataLine)
      = some q)
    (hq : classify q.1 = .header) :
    (fileOf (runLines initSt ls).tr).head? = some ("real_time," ++ String.mk q.1 ++ "\n")
    ∧ tsHeader.isPrefixOf q.1 = true :=
  ⟨runLines_hfirst ls initSt q rfl rfl hf hq, classify_header_pre q.1 hq⟩

theorem claim_C8_witness :
    ([("#c".data, t0), ("timestamp,a".data, t0), ("1,2".data, t0)].find?
        (fun p => classify p.1 == LineClass.header || classify p.1 == LineClass.dataLine)
      = some ("timestamp,a".data, t0))
    ∧ classify "timestamp,a".data = .header
    ∧ ((fileOf (runLines initSt
          [("#c".data, t0), ("timestamp,a".data, t0), ("1,2".data, t0)]).tr).head?
        = some ("real_time," ++ String.mk "timestamp,a".data ++ "\n")
      ∧ tsHeader.isPrefixOf "timestamp,a".data = true) :=
  ⟨by decide, by decide,
   claim_C8_header_first [("#c".data, t0), ("timestamp,a".data, t0), ("1,2".data, t0)]
     ("timestamp,a".data, t0) (by decide) (by decide)⟩

/-- Claim C9, counterexample: the console counter field is SPACE-padded
(`{line_count:4d}`), not zero-padded: the first data line prints with
counter field `   1`, which differs from the zero-padded `0001`. -/
theorem claim_C9_counterexample :
    consoleOf (processLine initSt "1".data t0).tr
      = ["[   1] 2026-10-12 13:14:15.987 | 1"]
    ∧ "[   1] 2026-10-12 13:14:15.987 | 1" ≠ "[0001] 2026-10-12 13:14:15.987 | 1" := by
  constructor <;> decide

/-- Claim C9 (amended): the wall-clock timestamp of every data record is
formatted at millisecond precision as `YYYY-MM-DD HH:MM:SS.mmm` (the
source rendering equals the spec-format rendering), and the console line
of a data record combines the space-padded, right-aligned width-4
counter, that timestamp, and the raw data line. -/
theorem claim_C9_format (t : PyTime) (st : St) (l : List Char) (now : PyTime) :
    pyTimestamp t = fmtSpecMs t
    ∧ (classify l = .dataLine →
        consoleOf (processLine st l now).tr
          = consoleOf st.tr
            ++ ["[" ++ pyPad4 (st.cnt + 1) ++ "] " ++ pyTimestamp now ++ " | "
                ++ String.mk l]) := by
  constructor
  · exact String.ext (pyTimestamp_chars t)
  · intro h
    rw [processLine_tr, consoleOf_append]
    simp [lineActs, h, consoleOf, actPut]

theorem claim_C9_witness :
    pyTimestamp t0 = fmtSpecMs t0
    ∧ classify "1".data = .dataLine
    ∧ consoleOf (processLine initSt "1".data t0).tr
        = consoleOf initSt.tr
          ++ ["[" ++ pyPad4 (initSt.cnt + 1) ++ "] " ++ pyTimestamp t0 ++ " | "
              ++ String.mk "1".data] :=
  ⟨(claim_C9_format t0 initSt "1".data t0).1, by decide,
   (claim_C9_format t0 initSt "1".data t0).2 (by decide)⟩

/-- Claim C10: a line delivered by `readline` carries a newline only as
its final character, if at all; stripping therefore leaves a line with
no newline, and every record the iteration appends for such a line is
its body followed by exactly one terminating newline, with no interior
newline: the output file holds one record per line. -/
theorem claim_C10_newline (raw : List Char) (st : St) (l : List Char) (now : PyTime) :
    ('\n' ∉ raw.dropLast → '\n' ∉ pyStrip raw)
    ∧ ('\n' ∉ l → ∃ new, fileOf (processLine st l now).tr = fileOf st.tr ++ new
        ∧ ∀ r ∈ new, r.data.count '\n' = 1 ∧ r.data.getLast? = some '\n') := by
  refine ⟨pyStrip_no_nl raw, ?_⟩
  intro hnl
  refine ⟨fileOf (lineActs st l now), by rw [processLine_tr, fileOf_append], ?_⟩
  intro r hr
  cases h : classify l with
  | empty => simp [lineActs, h, fileOf, actFile] at hr
  | comment => simp [lineActs, h, fileOf, actFile] at hr
  | unknown => simp [lineActs, h, fileOf, actFile] at hr
  | header =>
    cases hw : st.hw with
    | true => simp [lineActs, h, hw, fileOf, actFile] at hr
    | false =>
      simp [lineActs, h, hw, fileOf, actFile] at hr
      subst hr
      have hdata : ("real_time," ++ String.mk l ++ "\n").data
          = ("real_time,".data ++ l) ++ ['\n'] := by
        simp [String.data_append, List.append_assoc,
          show ("\n" : String).data = ['\n'] from rfl,
          show (String.mk l).data = l from rfl]
      rw [hdata]
      apply record_nl
      intro hmem
      rcases List.mem_append.mp hmem with hm | hm
      · exact absurd hm (by decide)
      · exact hnl hm
  | dataLine =>
    simp [lineActs, h, fileOf, actFile] at hr
    subst hr
    have hdata : (pyTimestamp now ++ "," ++ String.mk l ++ "\n").data
        = (((pyTimestamp now).data ++ [',']) ++ l) ++ ['\n'] := by
      simp [String.data_append, List.append_assoc,
        show ("," : String).data = [','] from rfl,
        show ("\n" : String).data = ['\n'] from rfl,
        show (String.mk l).data = l from rfl]
    rw [hdata]
    apply record_nl
    intro hmem
    rcases List.mem_append.mp hmem with hm | hm
    · rcases List.mem_append.mp hm with hm2 | hm2
      · exact pyTimestamp_not_nl now hm2
      · rw [List.mem_singleton] at hm2
        exact absurd hm2 (by decide)
    · exact hnl hm

theorem claim_C10_witness :
    ('\n' ∉ " 1,2\n".data.dropLast ∧ '\n' ∉ pyStrip " 1,2\n".data)
    ∧ ('\n' ∉ "1,2".data
      ∧ ∃ new, fileOf (processLine initSt "1,2".data t0).tr = fileOf initSt.tr ++ new
          ∧ ∀ r ∈ new, r.data.count '\n' = 1 ∧ r.data.getLast? = some '\n') :=
  ⟨⟨by decide, (claim_C10_newline " 1,2\n".data initSt "1,2".data t0).1 (by decide)⟩,
   ⟨by decide, (claim_C10_newline " 1,2\n".data initSt "1,2".data t0).2 (by decide)⟩⟩

/-- Claim C3: the code decodes with `errors='replace'`, which never
raises, so the `except UnicodeDecodeError` warn-and-skip handler is
unreachable.  Evaluating the loop body at the malformed byte sequence
`0x31 0xFF` (ASCII `1` followed by an invalid UTF-8 byte): the line is
decoded to `1�`, classified as a DataLine, a record IS written,
LineCounter DOES increment, and no decode warning is printed —
contradicting the claimed warn-and-discard behaviour. -/
theorem claim_C3_decode_eval :
    validUtf8 [49, 255] = false
    ∧ decodeUtf8Replace [49, 255] = ['1', repl]
    ∧ (stepBytes initSt [49, 255] t0).cnt = 1
    ∧ fileOf (stepBytes initSt [49, 255] t0).tr
        = ["2026-10-12 13:14:15.987,1" ++ String.mk [repl] ++ "\n"]
    ∧ consoleOf (stepBytes initSt [49, 255] t0).tr
        = ["[   1] 2026-10-12 13:14:15.987 | 1" ++ String.mk [repl]]
    ∧ "⚠ Decode error - skipping malformed data"
        ∉ consoleOf (stepBytes initSt [49, 255] t0).tr := by
  refine ⟨by decide, by decide, by decide, by decide, by decide, by decide⟩

end CsvLogger
